import Mathlib

/-!
Shallow embedding of the transaction-analysis program in
src/transaction_analyzer.py, and proofs about it.

The ledger (a pandas DataFrame) is modeled column-major as an ordered
association list from column labels to lists of cells.  A cell is either
missing (NaN/NaT), an exact rational (machine floats are modeled as exact
rationals; the float-to-string-to-float round trip performed by the code on
numeric columns is exact at this level), a raw string, or a parsed date.
Column lookup is first-match; assignment to an existing label replaces the
values of every column bearing that label, and assignment to an absent label
appends a new column at the end, mirroring pandas.
-/

namespace TA

/-- A cell of the in-memory table: missing value (NaN/NaT), numeric value,
raw string, or parsed datetime (stored as day, month, year). -/
inductive Cell where
  | null : Cell
  | num : ℚ → Cell
  | str : String → Cell
  | date : Nat → Nat → Nat → Cell
deriving DecidableEq

def Cell.isNull : Cell → Bool
  | .null => true
  | _ => false

def Cell.isNum : Cell → Bool
  | .num _ => true
  | _ => false

def Cell.isDate : Cell → Bool
  | .date _ _ _ => true
  | _ => false

/-- A ledger: ordered list of (column label, column cells).  Duplicate labels
are possible (they arise when label trimming makes two labels collide). -/
abbrev Ledger := List (String × List Cell)

/-- COLUMN_CONFIG of the source: the configured date column label. -/
def dateColName : String := "Transaction Date"

/-- COLUMN_CONFIG of the source: the configured debit column label. -/
def debitColName : String := "Debit Amount"

/-- COLUMN_CONFIG of the source: the configured credit column label. -/
def creditColName : String := "Credit Amount"

/-- First-match lookup in an association list with string keys. -/
def lookupBy {α : Type} : List (String × α) → String → Option α
  | [], _ => none
  | c :: cs, n => if c.1 = n then some c.2 else lookupBy cs n

/-- Column access df[name] when the label is unique: the first (only)
matching column.  pandas selection of a duplicated label returns every
matching column instead; that selection is modeled by lookupAllCols, which
coincides with this first-match lookup whenever the labels are distinct
(lookupAllCols_of_nodup). -/
def lookupCol (l : Ledger) (n : String) : Option (List Cell) := lookupBy l n

/-- pandas column selection df[name] with possibly duplicated labels: the
values of every matching column, in frame order. -/
def lookupAllCols (l : Ledger) (n : String) : List (List Cell) :=
  (l.filter (fun c => c.1 == n)).map Prod.snd

/-- The labels of a ledger, in order. -/
def labelsOf (l : Ledger) : List String := l.map Prod.fst

/-- Replace the cells of every column labeled n by v. -/
def setAll : Ledger → String → List Cell → Ledger
  | [], _, _ => []
  | c :: cs, n, v => (if c.1 = n then (c.1, v) else c) :: setAll cs n v

/-- Column assignment df[name] = v: replace matching columns when the label
exists, append a new column otherwise. -/
def setCol (l : Ledger) (n : String) (v : List Cell) : Ledger :=
  if (lookupCol l n).isSome then setAll l n v else l ++ [(n, v)]

/-- Number of rows: the length of the first column (0 for no columns),
matching len(df) for rectangular frames. -/
def nrows : Ledger → Nat
  | [] => 0
  | c :: _ => c.2.length

/- ### Date parsing: pd.to_datetime(..., format of day/month/year, coerce) -/

def isLeapYear (y : Nat) : Bool := (y % 4 == 0 && y % 100 != 0) || y % 400 == 0

def daysInMonth (y m : Nat) : Nat :=
  if m == 2 then (if isLeapYear y then 29 else 28)
  else if m == 4 || m == 6 || m == 9 || m == 11 then 30
  else 31

def validDMY (d m y : Nat) : Bool :=
  1 ≤ m && m ≤ 12 && 1 ≤ d && d ≤ daysInMonth y m && 1 ≤ y && y ≤ 9999

/-- Split a character list on a separator character. -/
def splitOnChar (sep : Char) : List Char → List (List Char)
  | [] => [[]]
  | c :: cs =>
    if c = sep then [] :: splitOnChar sep cs
    else
      match splitOnChar sep cs with
      | g :: gs => (c :: g) :: gs
      | [] => [[c]]

def digitsVal (cs : List Char) : Nat := cs.foldl (fun a c => a * 10 + (c.toNat - 48)) 0

/-- A nonempty all-digit field of bounded width (strptime accepts 1-2 digit
day and month and up to 4 digit year). -/
def parseDateField (cs : List Char) (maxLen : Nat) : Option Nat :=
  if cs ≠ [] ∧ cs.length ≤ maxLen ∧ cs.all Char.isDigit then some (digitsVal cs) else none

/-- Strict parse of a date string in the fixed day/month/year format; none
models NaT under coercion. -/
def parseDateStr (s : String) : Option (Nat × Nat × Nat) :=
  match splitOnChar '/' s.toList with
  | [ds, ms, ys] =>
    match parseDateField ds 2, parseDateField ms 2, parseDateField ys 4 with
    | some d, some m, some y => if validDMY d m y then some (d, m, y) else none
    | _, _, _ => none
  | _ => none

/-- Parsing a cell of the date column: an already-parsed datetime passes
through unchanged, a string is parsed strictly, anything else coerces to
NaT. -/
def parseDateCell : Cell → Option (Nat × Nat × Nat)
  | .date d m y => some (d, m, y)
  | .str s => parseDateStr s
  | _ => none

def parseDateOrNull (c : Cell) : Cell :=
  match parseDateCell c with
  | some (d, m, y) => Cell.date d m y
  | none => Cell.null

/-- Keep the cells whose mask entry is true (row filtering by a boolean
mask, as in dropna). -/
def filterMask : List Bool → List Cell → List Cell
  | true :: bs, c :: cs => c :: filterMask bs cs
  | false :: bs, _ :: cs => filterMask bs cs
  | _, _ => []

/-- The date stage of _preprocess_data: if the configured date column is
present, parse every value with the fixed format, then (when any value
failed to parse) drop every row whose date is NaT. -/
def processDates (l : Ledger) : Ledger :=
  match lookupCol l dateColName with
  | none => l
  | some cells =>
    if (cells.map parseDateOrNull).any Cell.isNull then
      (setCol l dateColName (cells.map parseDateOrNull)).map
        (fun c => (c.1, filterMask ((cells.map parseDateOrNull).map (fun x => !Cell.isNull x)) c.2))
    else setCol l dateColName (cells.map parseDateOrNull)

/- ### Amount parsing: strip the pound sign, commas and spaces, then
pd.to_numeric(..., coerce), then fillna(0) -/

/-- str.replace removing the pound sign, commas and spaces. -/
def stripMoney (s : String) : String :=
  String.mk (s.toList.filter (fun c => !(c == '£' || c == ',' || c == ' ')))

/-- Longest digit prefix and the rest. -/
def splitDigits : List Char → List Char × List Char
  | [] => ([], [])
  | c :: cs =>
    if c.isDigit then
      let r := splitDigits cs
      (c :: r.1, r.2)
    else ([], c :: cs)

def parseSign : List Char → Bool × List Char
  | '-' :: cs => (true, cs)
  | '+' :: cs => (false, cs)
  | cs => (false, cs)

def parseExpDigits (cs : List Char) : Option Int :=
  let sr := parseSign cs
  let dr := splitDigits sr.2
  if dr.1 ≠ [] ∧ dr.2 = [] then
    some (if sr.1 then -(digitsVal dr.1 : Int) else (digitsVal dr.1 : Int))
  else none

def parseExponent : List Char → Option Int
  | [] => some 0
  | 'e' :: cs => parseExpDigits cs
  | 'E' :: cs => parseExpDigits cs
  | _ => none

/-- Strict decimal parse modeling the numeric coercion: optional sign,
digits with optional fraction part, optional exponent; anything else is
unparsable (none).  Non-finite literals are out of scope and modeled as
unparsable. -/
def parseDecimal (s : String) : Option ℚ :=
  let sg := parseSign s.toList
  let ip := splitDigits sg.2
  let af : List Char × List Char :=
    match ip.2 with
    | '.' :: rest => splitDigits rest
    | other => ([], other)
  if ip.1 = [] ∧ af.1 = [] then none
  else
    match parseExponent af.2 with
    | none => none
    | some e =>
      let mant : ℚ := (digitsVal ip.1 : ℚ) + (digitsVal af.1 : ℚ) / ((10 : ℚ) ^ af.1.length)
      let mag : ℚ := mant * (10 : ℚ) ^ e
      some (if sg.1 then -mag else mag)

/-- One amount cell through astype(str), character stripping and
to_numeric: a numeric cell round-trips exactly, a missing cell renders as
the string nan which coerces back to NaN, a string is stripped and parsed,
a datetime renders as a non-numeric string. -/
def coerceAmountCell : Cell → Option ℚ
  | .num q => some q
  | .str s => parseDecimal (stripMoney s)
  | _ => none

/-- The per-column amount processing of _preprocess_data for a column that
exists: an entirely-missing column is replaced by zeros; otherwise every
value is coerced and any value that fails to coerce becomes zero. -/
def processAmountCol (cells : List Cell) : List Cell :=
  if cells.all Cell.isNull then cells.map (fun _ => Cell.num 0)
  else cells.map (fun c => Cell.num ((coerceAmountCell c).getD 0))

/-- The amount stage of _preprocess_data for one configured column: an
absent column is created filled with zeros, a present column is processed
in place.  The source also carries a catch-all handler that zeroes the
whole column on an unexpected exception; string conversion, replacement
and coercing to_numeric cannot raise on the cell values modeled here, so
that branch is unreachable in this embedding. -/
def processAmount (col : String) (l : Ledger) : Ledger :=
  match lookupCol l col with
  | none => setCol l col (List.replicate (nrows l) (Cell.num 0))
  | some cells => setCol l col (processAmountCol cells)

/- ### Label standardization: df.columns.str.strip() -/

def isStripChar (c : Char) : Bool := c == ' ' || c == '\t' || c == '\n' || c == '\r'

def trimChars (cs : List Char) : List Char :=
  ((cs.dropWhile isStripChar).reverse.dropWhile isStripChar).reverse

/-- Whitespace trimming of a label (str.strip()). -/
def strTrim (s : String) : String := String.mk (trimChars s.toList)

/-- Trim every column label. -/
def stripLabels (l : Ledger) : Ledger := l.map (fun c => (strTrim c.1, c.2))

/-- _preprocess_data: dates, then the debit column, then the credit column,
then label trimming, in source order. -/
def preprocessData (l : Ledger) : Ledger :=
  stripLabels (processAmount creditColName (processAmount debitColName (processDates l)))

/-- Well-formedness of raw ledger labels: already trimmed and pairwise
distinct (the labels read_csv produces are distinct; collisions appear only
when trimming merges labels, the situation studied separately). -/
def CleanLabels (l : Ledger) : Prop :=
  (∀ s ∈ labelsOf l, strTrim s = s) ∧ (labelsOf l).Nodup

/- ### The Analyzer: analyze_structure -/

/-- Count of missing values in a column (isnull().sum()). -/
def countNulls (cells : List Cell) : Nat := (cells.filter Cell.isNull).length

/-- Column sum skipping missing values (Series.sum over a numeric column;
only numeric cells contribute). -/
def sumNums (cells : List Cell) : ℚ :=
  cells.foldl (fun a c => match c with | .num q => a + q | _ => a) 0

/-- df[name].sum() under pandas label selection: the per-column sums of
every column bearing the label.  For a unique label this is the singleton
of the scalar sum; for a duplicated label pandas returns exactly these
values as a Series. -/
def sumSelected (l : Ledger) (n : String) : List ℚ :=
  (lookupAllCols l n).map sumNums

/-- Chronological key of a parsed date. -/
def dateKey : Nat × Nat × Nat → Nat
  | (d, m, y) => y * 10000 + m * 100 + d

/-- Earliest parsed date of a column (Series.min over datetimes, skipping
missing values). -/
def minDateC (cells : List Cell) : Option (Nat × Nat × Nat) :=
  cells.foldl (fun acc c =>
    match c with
    | .date d m y =>
      match acc with
      | none => some (d, m, y)
      | some b => if dateKey (d, m, y) < dateKey b then some (d, m, y) else some b
    | _ => acc) none

/-- Latest parsed date of a column. -/
def maxDateC (cells : List Cell) : Option (Nat × Nat × Nat) :=
  cells.foldl (fun acc c =>
    match c with
    | .date d m y =>
      match acc with
      | none => some (d, m, y)
      | some b => if dateKey b < dateKey (d, m, y) then some (d, m, y) else some b
    | _ => acc) none

/-- Descriptive statistics of one numeric column, as produced by describe():
count, mean, dispersion, min, quartiles, max.  The standard deviation is
represented by its square `var` (sample variance, ddof 1) to stay inside the
rationals; for a single observation pandas reports NaN, modeled here by the
junk value 0. -/
structure DescStats where
  count : Nat
  mean : ℚ
  var : ℚ
  minV : ℚ
  q25 : ℚ
  q50 : ℚ
  q75 : ℚ
  maxV : ℚ
deriving DecidableEq

def sumQ (xs : List ℚ) : ℚ := xs.foldl (· + ·) 0

def meanQ (xs : List ℚ) : ℚ := sumQ xs / xs.length

def varQ (xs : List ℚ) : ℚ :=
  (sumQ (xs.map (fun x => (x - meanQ xs) ^ 2))) / ((xs.length : ℚ) - 1)

def minQ : List ℚ → ℚ
  | [] => 0
  | a :: r => r.foldl min a

def maxQ : List ℚ → ℚ
  | [] => 0
  | a :: r => r.foldl max a

/-- Percentile with the linear interpolation rule pandas uses. -/
def quantileQ (xs : List ℚ) (p : ℚ) : ℚ :=
  let s := List.insertionSort (· ≤ ·) xs
  match s with
  | [] => 0
  | a :: _ =>
    let pos : ℚ := p * ((s.length : ℚ) - 1)
    let i : Nat := (Int.floor pos).toNat
    let frac : ℚ := pos - (i : ℚ)
    s.getD i a + frac * (s.getD (i + 1) (s.getD i a) - s.getD i a)

def descStats (xs : List ℚ) : DescStats :=
  ⟨xs.length, meanQ xs, varQ xs, minQ xs,
   quantileQ xs (1/4), quantileQ xs (1/2), quantileQ xs (3/4), maxQ xs⟩

def colNums (cells : List Cell) : List ℚ :=
  cells.filterMap (fun c => match c with | .num q => some q | _ => none)

/-- df.describe(): descriptive statistics for every (nonempty, fully
numeric) column.  The normalized amount columns always qualify. -/
def describeLedger (l : Ledger) : List (String × DescStats) :=
  (l.filter (fun c => !c.2.isEmpty && c.2.all Cell.isNum)).map
    (fun c => (c.1, descStats (colNums c.2)))

/-- The nested time_period dictionary of the analysis result.  The source
key named end is a Lean keyword, rendered here as stop. -/
structure TimePeriod where
  start : Option (Nat × Nat × Nat)
  stop : Option (Nat × Nat × Nat)
deriving DecidableEq

structure Amounts where
  total_debit : ℚ
  total_credit : ℚ
deriving DecidableEq

structure BasicInfo where
  num_transactions : Nat
  time_period : TimePeriod
  amounts : Amounts
deriving DecidableEq

/-- The dictionary analyze_structure returns.  The empty-ledger variant
carries the warning marker; the non-empty variant does not. -/
structure Analysis where
  basic_info : BasicInfo
  missing_values : List (String × Nat)
  summary_stats : List (String × DescStats)
  warning : Option String
deriving DecidableEq

def noDataMsg : String := "No data available for analysis"

def keyErrorMsg (c : String) : String := "KeyError: " ++ c

/-- analyze_structure.  The empty check df.empty holds exactly when the row
count is zero (a frame with no columns also has zero rows).  On the
non-empty path the date, debit and credit columns are indexed
unconditionally, in that evaluation order; a missing one raises KeyError,
modeled as an error value. -/
def analyzeStructure (l : Ledger) : Except String Analysis :=
  if nrows l = 0 then
    .ok ⟨⟨0, ⟨none, none⟩, ⟨0, 0⟩⟩, [], [], some noDataMsg⟩
  else
    match lookupCol l dateColName with
    | none => .error (keyErrorMsg dateColName)
    | some dc =>
      match lookupCol l debitColName with
      | none => .error (keyErrorMsg debitColName)
      | some db =>
        match lookupCol l creditColName with
        | none => .error (keyErrorMsg creditColName)
        | some cr =>
          .ok ⟨⟨nrows l, ⟨minDateC dc, maxDateC dc⟩, ⟨sumNums db, sumNums cr⟩⟩,
               l.map (fun c => (c.1, countNulls c.2)),
               describeLedger l,
               none⟩

/- ### The Judge call: get_judge_evaluation -/

/-- Outcome of one attempt of the judge stage: the availability probe fails,
or the generation call returns text, or the generation call raises. -/
inductive JudgeAttempt where
  | connDown : JudgeAttempt
  | genOk : String → JudgeAttempt
  | genFail : String → JudgeAttempt
deriving DecidableEq

/-- A Python call either returns a value or lets an exception escape. -/
inductive PyResult where
  | returned : String → PyResult
  | raised : String → PyResult
deriving DecidableEq

def maxRetries : Nat := 3

def serviceUnavailableMsg : String :=
  "LLM service is currently unavailable. Please ensure Ollama is running and accessible."

def judgeFallbackMsg (e : String) : String :=
  "Error generating judge evaluation: " ++ e ++ "\nPlease check the Ollama service and try again."

/-- The module imports pandas, matplotlib, seaborn, os, datetime, ollama,
dotenv and typing but never the time module, so the expression
time.sleep(retry_delay) in the retry branch raises this NameError. -/
def timeNameError : String := "NameError: name 'time' is not defined"

/-- The body of the retry loop of get_judge_evaluation, indexed by the
current attempt number and remaining fuel (the loop ranges over
max_retries attempts).  On a generation failure before the last attempt the
handler evaluates time.sleep(retry_delay); since the time module is never
imported this raises a NameError that escapes the function, so the loop
never actually proceeds to the next attempt after a failure. -/
def judgeLoop (attempts : Nat → JudgeAttempt) : Nat → Nat → PyResult
  | _, 0 => .raised "loop exhausted"
  | i, _fuel + 1 =>
    match attempts i with
    | .connDown => .returned serviceUnavailableMsg
    | .genOk s => .returned s
    | .genFail e =>
      if i + 1 < maxRetries then
        .raised timeNameError
      else
        .returned (judgeFallbackMsg e)

/-- get_judge_evaluation as a function of the per-attempt outcomes of the
external service.  The fuel argument matches range(max_retries). -/
def getJudgeEvaluation (attempts : Nat → JudgeAttempt) : PyResult :=
  judgeLoop attempts 0 maxRetries

/- ### The report assembler: generate_report and the section writers -/

/-- _write_report_header, as a string: title plus generation timestamp. -/
def writeReportHeader (ts : String) : String :=
  "# Bank Transaction Analysis Report\n\n" ++ "Generated on: " ++ ts ++ "\n\n"

def pad2 (n : Nat) : String := if n < 10 then "0" ++ toString n else toString n

/-- Rendering of a Timestamp, as str() produces it. -/
def showDate : Nat × Nat × Nat → String
  | (d, m, y) => toString y ++ "-" ++ pad2 m ++ "-" ++ pad2 d ++ " 00:00:00"

def showOptDate : Option (Nat × Nat × Nat) → String
  | some t => showDate t
  | none => "NaT"

def commaAux : List Char → Nat → List Char
  | [], _ => []
  | c :: cs, counter =>
    if counter = 3 then ',' :: c :: commaAux cs 1
    else c :: commaAux cs (counter + 1)

/-- Thousands grouping of a digit string. -/
def commaGroup (ds : List Char) : List Char := (commaAux ds.reverse 0).reverse

/-- The comma-grouped two-decimal money format.  Python rounds floats half
to even; rounding is modeled half up, which agrees on the inputs of
interest. -/
def fmtMoney (q : ℚ) : String :=
  let r : Int := Int.floor (q * 100 + 1 / 2)
  let a := r.natAbs
  let ip := a / 100
  let fp := a % 100
  (if r < 0 then "-" else "") ++ String.mk (commaGroup (toString ip).toList) ++ "." ++ pad2 fp

/-- Line rendering of the missing-value table; the exact pandas to_string
layout is abstracted to one label and count per line. -/
def showMissing (mv : List (String × Nat)) : String :=
  String.intercalate "\n" (mv.map (fun e => e.1 ++ "  " ++ toString e.2))

/-- Line rendering of the summary-statistics table; the exact pandas
to_string layout is abstracted to one label and count per line. -/
def showStats (ss : List (String × DescStats)) : String :=
  String.intercalate "\n" (ss.map (fun e => e.1 ++ "  count=" ++ toString e.2.count))

/-- _write_structure_analysis: on a warning marker only the warning line is
written; otherwise the counts, period, total and the two tables. -/
def writeStructureAnalysis (a : Analysis) : String :=
  "## Data Structure Analysis\n\n" ++
  match a.warning with
  | some w => "**Warning:** " ++ w ++ "\n\n"
  | none =>
    "Number of transactions: " ++ toString a.basic_info.num_transactions ++ "\n\n" ++
    "Time period: " ++ showOptDate a.basic_info.time_period.start ++ " to " ++
      showOptDate a.basic_info.time_period.stop ++ "\n\n" ++
    "Total amount: £" ++ fmtMoney a.basic_info.amounts.total_debit ++ "\n\n" ++
    "### Missing Values\n\n" ++ showMissing a.missing_values ++ "\n\n" ++
    "### Summary Statistics\n\n" ++ showStats a.summary_stats ++ "\n\n"

/-- What visualize_transactions hands to the report: either the no-data
warning marker, or a mapping from logical chart names to file paths. -/
structure Plots where
  warning : Option String
  plots : List (String × String)
deriving DecidableEq

def capitalizeWord (w : List Char) : String :=
  match w with
  | [] => ""
  | c :: cs => String.mk (c.toUpper :: cs.map Char.toLower)

/-- str.title() over space-separated words. -/
def titleCase (s : String) : String :=
  String.intercalate " " ((splitOnChar ' ' s.toList).map capitalizeWord)

def underscoreToSpace (s : String) : String :=
  String.mk (s.toList.map (fun c => if c = '_' then ' ' else c))

/-- _write_visualizations: on a warning marker only the warning line;
otherwise one titled image reference per chart. -/
def writeVisualizations (p : Plots) : String :=
  "## Visualizations\n\n" ++
  match p.warning with
  | some w => "**Warning:** " ++ w ++ "\n\n"
  | none =>
    String.join (p.plots.map (fun pl =>
      "### " ++ titleCase (underscoreToSpace pl.1) ++ "\n\n![" ++ pl.1 ++ "](" ++ pl.2 ++ ")\n\n"))

/-- _write_llm_insights: the insight text (or the upstream fallback string)
verbatim under the section heading. -/
def writeLlmInsights (insights : String) : String :=
  "## LLM Insights\n\n" ++ insights ++ "\n\n"

/-- _write_judge_evaluation: the evaluation text (or the upstream fallback
string) verbatim under the section heading. -/
def writeJudgeEvaluation (evaluation : String) : String :=
  "## Expert Review\n\n" ++ evaluation ++ "\n\n"

/-- generate_report, as the document it writes: header, then the four
sections in source order.  The analysis, plots, narrative and judge texts
are the outputs of the upstream stages. -/
def generateReport (ts : String) (a : Analysis) (p : Plots)
    (insights evaluation : String) : String :=
  writeReportHeader ts ++ writeStructureAnalysis a ++ writeVisualizations p ++
    writeLlmInsights insights ++ writeJudgeEvaluation evaluation

/-! ### Association-list lemmas for column lookup and assignment -/

theorem lookupBy_append {α : Type} (l₁ l₂ : List (String × α)) (n : String) :
    lookupBy (l₁ ++ l₂) n =
      match lookupBy l₁ n with
      | some v => some v
      | none => lookupBy l₂ n := by
  induction l₁ with
  | nil => simp [lookupBy]
  | cons c cs ih =>
    by_cases h : c.1 = n <;> simp [lookupBy, h, ih]

theorem lookupBy_map_values {α β : Type} (f : α → β) (l : List (String × α)) (n : String) :
    lookupBy (l.map (fun c => (c.1, f c.2))) n = (lookupBy l n).map f := by
  induction l with
  | nil => simp [lookupBy]
  | cons c cs ih =>
    by_cases h : c.1 = n <;> simp [lookupBy, h, ih]

theorem lookupBy_eq_none_iff {α : Type} (l : List (String × α)) (n : String) :
    lookupBy l n = none ↔ n ∉ l.map Prod.fst := by
  induction l with
  | nil => simp [lookupBy]
  | cons c cs ih =>
    by_cases h : c.1 = n <;> simp [lookupBy, h, ih] <;> tauto

theorem labels_setAll (l : Ledger) (n : String) (v : List Cell) :
    labelsOf (setAll l n v) = labelsOf l := by
  induction l with
  | nil => rfl
  | cons c cs ih =>
    by_cases h : c.1 = n <;> simp [setAll, labelsOf, h] <;>
      simpa [labelsOf] using ih

theorem lookup_setAll_self (l : Ledger) (n : String) (v : List Cell) :
    lookupCol (setAll l n v) n = (lookupCol l n).map (fun _ => v) := by
  induction l with
  | nil => rfl
  | cons c cs ih =>
    by_cases h : c.1 = n <;> simp [setAll, lookupCol, lookupBy, h] <;>
      simpa [lookupCol, lookupBy] using ih

theorem labelsOf_cons (c : String × List Cell) (cs : Ledger) :
    labelsOf (c :: cs) = c.1 :: labelsOf cs := rfl

theorem lookup_setAll_ne (l : Ledger) {m n : String} (v : List Cell) (h : m ≠ n) :
    lookupCol (setAll l n v) m = lookupCol l m := by
  induction l with
  | nil => rfl
  | cons c cs ih =>
    by_cases hc : c.1 = n
    · have hnm : ¬ n = m := fun he => h he.symm
      simp [setAll, lookupCol, lookupBy, hc, hnm] at ih ⊢
      exact ih
    · by_cases hm : c.1 = m
      · simp [setAll, lookupCol, lookupBy, hc, hm, h]
      · simp [setAll, lookupCol, lookupBy, hc, hm] at ih ⊢
        exact ih

theorem setAll_of_not_mem (l : Ledger) {n : String} (v : List Cell)
    (h : n ∉ labelsOf l) : setAll l n v = l := by
  induction l with
  | nil => rfl
  | cons c cs ih =>
    simp [labelsOf] at h
    push_neg at h
    have hc : ¬ c.1 = n := fun he => h.1 he.symm
    simp [setAll, hc]
    exact ih (by simpa [labelsOf] using h.2)

theorem setAll_self (l : Ledger) {n : String} {v : List Cell}
    (hnd : (labelsOf l).Nodup) (hv : lookupCol l n = some v) : setAll l n v = l := by
  induction l with
  | nil => rfl
  | cons c cs ih =>
    obtain ⟨a, b⟩ := c
    rw [labelsOf_cons] at hnd
    obtain ⟨hna, hnd2⟩ := List.nodup_cons.mp hnd
    by_cases h : a = n
    · simp [lookupCol, lookupBy, h] at hv
      subst h
      simp [setAll, hv]
      exact setAll_of_not_mem cs v hna
    · simp [lookupCol, lookupBy, h] at hv
      simp [setAll, h]
      exact ih hnd2 hv

theorem setCol_of_present (l : Ledger) {n : String} (v : List Cell)
    (h : (lookupCol l n).isSome) : setCol l n v = setAll l n v := by
  simp [setCol, h]

theorem setCol_of_absent (l : Ledger) {n : String} (v : List Cell)
    (h : lookupCol l n = none) : setCol l n v = l ++ [(n, v)] := by
  simp [setCol, h]

theorem setCol_self (l : Ledger) {n : String} {v : List Cell}
    (hnd : (labelsOf l).Nodup) (hv : lookupCol l n = some v) : setCol l n v = l := by
  rw [setCol_of_present l v (by simp [hv])]
  exact setAll_self l hnd hv

theorem lookup_setCol_self (l : Ledger) (n : String) (v : List Cell) :
    lookupCol (setCol l n v) n = some v := by
  unfold setCol
  by_cases h : (lookupCol l n).isSome
  · simp [h]
    rw [lookup_setAll_self]
    rcases Option.isSome_iff_exists.mp h with ⟨w, hw⟩
    simp [lookupCol] at hw ⊢
    simp [hw]
  · simp [h]
    have hn : lookupCol l n = none := Option.not_isSome_iff_eq_none.mp h
    simp [lookupCol] at hn ⊢
    rw [lookupBy_append]
    simp [hn, lookupBy]

theorem lookup_setCol_ne (l : Ledger) {m n : String} (v : List Cell) (h : m ≠ n) :
    lookupCol (setCol l n v) m = lookupCol l m := by
  unfold setCol
  by_cases hs : (lookupCol l n).isSome
  · simp [hs]
    exact lookup_setAll_ne l v h
  · simp [hs]
    simp [lookupCol]
    rw [lookupBy_append]
    cases hm : lookupBy l m with
    | some w => simp
    | none =>
      have hnm : ¬ n = m := fun he => h he.symm
      simp [lookupBy, hnm]

theorem labels_setCol_present (l : Ledger) {n : String} (v : List Cell)
    (h : (lookupCol l n).isSome) : labelsOf (setCol l n v) = labelsOf l := by
  rw [setCol_of_present l v h, labels_setAll]

theorem labels_setCol_absent (l : Ledger) {n : String} (v : List Cell)
    (h : lookupCol l n = none) : labelsOf (setCol l n v) = labelsOf l ++ [n] := by
  rw [setCol_of_absent l v h]
  simp [labelsOf]

/-! ### Row filtering and amount-column lemmas -/

theorem filterMask_length_le (bs : List Bool) (cs : List Cell) :
    (filterMask bs cs).length ≤ cs.length := by
  induction bs generalizing cs with
  | nil => cases cs <;> simp [filterMask]
  | cons b bs ih =>
    cases cs with
    | nil => cases b <;> simp [filterMask]
    | cons c cs =>
      cases b with
      | true => simpa [filterMask] using ih cs
      | false =>
        simp [filterMask]
        exact Nat.le_succ_of_le (ih cs)

theorem filterMask_map_pred (p : Cell → Bool) (cs : List Cell) :
    filterMask (cs.map p) cs = cs.filter p := by
  induction cs with
  | nil => rfl
  | cons c cs ih =>
    cases hp : p c <;> simp [filterMask, List.filter, hp, ih]

theorem filter_self_of_all {p : Cell → Bool} {cs : List Cell}
    (h : cs.all p) : cs.filter p = cs := by
  induction cs with
  | nil => rfl
  | cons c cs ih =>
    rw [List.all_cons, Bool.and_eq_true] at h
    simp only [List.filter_cons, h.1, if_true]
    rw [ih h.2]

theorem processAmountCol_length (cells : List Cell) :
    (processAmountCol cells).length = cells.length := by
  unfold processAmountCol
  split <;> simp

theorem processAmountCol_all_num (cells : List Cell) :
    (processAmountCol cells).all Cell.isNum := by
  unfold processAmountCol
  split <;>
  · rw [List.all_eq_true]
    intro x hx
    rw [List.mem_map] at hx
    obtain ⟨c, _, rfl⟩ := hx
    rfl

theorem map_eq_self_of {α : Type} {f : α → α} {l : List α}
    (h : ∀ x ∈ l, f x = x) : l.map f = l := by
  induction l with
  | nil => rfl
  | cons a l ih =>
    simp [h a (by simp)]
    exact ih (fun x hx => h x (by simp [hx]))

theorem replicate_all_num (k : Nat) :
    (List.replicate k (Cell.num 0)).all Cell.isNum := by
  rw [List.all_eq_true]
  intro x hx
  rw [List.eq_of_mem_replicate hx]
  rfl

theorem processAmountCol_of_all_num {cells : List Cell}
    (h : cells.all Cell.isNum) : processAmountCol cells = cells := by
  unfold processAmountCol
  cases cells with
  | nil => simp
  | cons c cs =>
    have hall : ∀ d ∈ c :: cs, Cell.isNum d := List.all_eq_true.mp h
    have hc : Cell.isNull c = false := by
      have hn := hall c (by simp)
      cases c <;> simp [Cell.isNum] at hn <;> rfl
    rw [if_neg (by simp [List.all_cons, hc])]
    refine map_eq_self_of (fun d hd => ?_)
    have hn := hall d hd
    cases d <;> simp [Cell.isNum] at hn <;> simp [coerceAmountCell]

/-! ### Row-count lemmas -/

theorem nrows_setAll_of_lookup {l : Ledger} {n : String} {w v : List Cell}
    (hl : lookupCol l n = some w) (hlen : v.length = w.length) :
    nrows (setAll l n v) = nrows l := by
  cases l with
  | nil => rfl
  | cons c cs =>
    by_cases h : c.1 = n
    · simp [lookupCol, lookupBy, h] at hl
      simp [setAll, nrows, h, hlen, hl]
    · simp [setAll, nrows, h]

theorem nrows_append_single (l : Ledger) (c : String × List Cell)
    (h : c.2.length = nrows l) : nrows (l ++ [c]) = nrows l := by
  cases l with
  | nil => simpa [nrows] using h
  | cons d ds => rfl

theorem nrows_setCol_of_lookup {l : Ledger} {n : String} {w v : List Cell}
    (hl : lookupCol l n = some w) (hlen : v.length = w.length) :
    nrows (setCol l n v) = nrows l := by
  rw [setCol_of_present l v (by simp [hl])]
  exact nrows_setAll_of_lookup hl hlen

theorem nrows_processAmount (col : String) (l : Ledger) :
    nrows (processAmount col l) = nrows l := by
  unfold processAmount
  cases hl : lookupCol l col with
  | none =>
    rw [setCol_of_absent l _ hl]
    exact nrows_append_single l _ (by simp)
  | some cells =>
    exact nrows_setCol_of_lookup hl (processAmountCol_length cells)

theorem nrows_stripLabels (l : Ledger) : nrows (stripLabels l) = nrows l := by
  cases l <;> rfl

theorem nrows_map_filter_le (l : Ledger) (mask : List Bool) :
    nrows (l.map (fun c => (c.1, filterMask mask c.2))) ≤ nrows l := by
  cases l with
  | nil => simp [nrows]
  | cons c cs => simpa [nrows] using filterMask_length_le mask c.2

/-! ### Date-stage lemmas -/

theorem labels_mapVal (l : Ledger) (f : List Cell → List Cell) :
    labelsOf (l.map (fun c => (c.1, f c.2))) = labelsOf l := by
  induction l with
  | nil => rfl
  | cons c cs ih => simpa [labelsOf] using ih

theorem lookup_mapVal (l : Ledger) (f : List Cell → List Cell) (n : String) :
    lookupCol (l.map (fun c => (c.1, f c.2))) n = (lookupCol l n).map f :=
  lookupBy_map_values f l n

theorem processDates_of_absent {l : Ledger} (h : lookupCol l dateColName = none) :
    processDates l = l := by
  simp [processDates, h]

theorem labels_processDates (l : Ledger) : labelsOf (processDates l) = labelsOf l := by
  unfold processDates
  cases hl : lookupCol l dateColName with
  | none => rfl
  | some cells =>
    by_cases ha : (cells.map parseDateOrNull).any Cell.isNull
    · simp only [ha, if_true]
      rw [labels_mapVal, labels_setCol_present l _ (by simp [hl])]
    · simp only [ha, if_false]
      exact labels_setCol_present l _ (by simp [hl])

theorem lookup_processDates_date {l : Ledger} {cells : List Cell}
    (h : lookupCol l dateColName = some cells) :
    lookupCol (processDates l) dateColName =
      some ((cells.map parseDateOrNull).filter (fun c => !Cell.isNull c)) := by
  unfold processDates
  rw [h]
  dsimp only
  by_cases ha : (cells.map parseDateOrNull).any Cell.isNull
  · rw [if_pos ha, lookup_mapVal, lookup_setCol_self, Option.map_some', filterMask_map_pred]
  · rw [if_neg ha, lookup_setCol_self]
    have hall : (cells.map parseDateOrNull).all (fun c => !Cell.isNull c) := by
      rw [List.all_eq_true]
      intro x hx
      by_contra hb
      apply ha
      rw [List.any_eq_true]
      refine ⟨x, hx, ?_⟩
      revert hb
      cases Cell.isNull x <;> simp
    rw [filter_self_of_all hall]

theorem lookup_processDates_ne {l : Ledger} {m : String} (hm : m ≠ dateColName)
    (hl : lookupCol l dateColName = none) :
    lookupCol (processDates l) m = lookupCol l m := by
  rw [processDates_of_absent hl]

theorem processDates_eq_self {l : Ledger} {cells : List Cell}
    (hnd : (labelsOf l).Nodup)
    (h : lookupCol l dateColName = some cells)
    (hall : cells.all Cell.isDate) :
    processDates l = l := by
  have hmap : cells.map parseDateOrNull = cells := by
    refine map_eq_self_of (fun c hc => ?_)
    have hd := (List.all_eq_true.mp hall) c hc
    cases c <;> simp [Cell.isDate] at hd <;> simp [parseDateOrNull, parseDateCell]
  have hnonull : ¬ (cells.map parseDateOrNull).any Cell.isNull := by
    rw [hmap, List.any_eq_true]
    rintro ⟨x, hx, hnull⟩
    have hd := (List.all_eq_true.mp hall) x hx
    cases x <;> simp [Cell.isDate] at hd <;> simp [Cell.isNull] at hnull
  unfold processDates
  rw [h]
  simp only [hnonull, if_false]
  rw [hmap]
  exact setCol_self l hnd h

theorem nrows_processDates_le (l : Ledger) : nrows (processDates l) ≤ nrows l := by
  unfold processDates
  cases hl : lookupCol l dateColName with
  | none => exact Nat.le_refl _
  | some cells =>
    have hset : nrows (setCol l dateColName (cells.map parseDateOrNull)) = nrows l :=
      nrows_setCol_of_lookup hl (List.length_map cells parseDateOrNull)
    by_cases ha : (cells.map parseDateOrNull).any Cell.isNull
    · simp only [ha, if_true]
      calc nrows ((setCol l dateColName (cells.map parseDateOrNull)).map
              (fun c => (c.1, filterMask ((cells.map parseDateOrNull).map (fun x => !Cell.isNull x)) c.2)))
          ≤ nrows (setCol l dateColName (cells.map parseDateOrNull)) := nrows_map_filter_le _ _
        _ = nrows l := hset
    · simp only [ha, if_false]
      exact Nat.le_of_eq hset

/-! ### Amount-stage lemmas -/

theorem processAmount_absent {l : Ledger} {col : String}
    (h : lookupCol l col = none) :
    processAmount col l = l ++ [(col, List.replicate (nrows l) (Cell.num 0))] := by
  unfold processAmount
  rw [h, setCol_of_absent l _ h]

theorem processAmount_present {l : Ledger} {col : String} {cells : List Cell}
    (h : lookupCol l col = some cells) :
    processAmount col l = setCol l col (processAmountCol cells) := by
  unfold processAmount
  rw [h]

theorem lookup_processAmount_absent {l : Ledger} {col : String}
    (h : lookupCol l col = none) :
    lookupCol (processAmount col l) col = some (List.replicate (nrows l) (Cell.num 0)) := by
  rw [processAmount_absent h]
  simp only [lookupCol] at h ⊢
  rw [lookupBy_append, h]
  simp [lookupBy]

theorem lookup_processAmount_present {l : Ledger} {col : String} {cells : List Cell}
    (h : lookupCol l col = some cells) :
    lookupCol (processAmount col l) col = some (processAmountCol cells) := by
  rw [processAmount_present h, lookup_setCol_self]

theorem lookup_processAmount_ne {l : Ledger} {m col : String} (h : m ≠ col) :
    lookupCol (processAmount col l) m = lookupCol l m := by
  unfold processAmount
  cases hl : lookupCol l col with
  | none => exact lookup_setCol_ne l _ h
  | some cells => exact lookup_setCol_ne l _ h

theorem labels_processAmount_present {l : Ledger} {col : String} {cells : List Cell}
    (h : lookupCol l col = some cells) :
    labelsOf (processAmount col l) = labelsOf l := by
  rw [processAmount_present h]
  exact labels_setCol_present l _ (by simp [h])

theorem labels_processAmount_absent {l : Ledger} {col : String}
    (h : lookupCol l col = none) :
    labelsOf (processAmount col l) = labelsOf l ++ [col] := by
  rw [processAmount_absent h]
  simp [labelsOf]

theorem labels_processAmount_sub (col : String) (l : Ledger) :
    ∀ s ∈ labelsOf (processAmount col l), s ∈ labelsOf l ∨ s = col := by
  cases hl : lookupCol l col with
  | none =>
    rw [labels_processAmount_absent hl]
    intro s hs
    simpa using hs
  | some cells =>
    rw [labels_processAmount_present hl]
    intro s hs
    exact Or.inl hs

theorem processAmount_eq_self {l : Ledger} {col : String} {cells : List Cell}
    (hnd : (labelsOf l).Nodup)
    (h : lookupCol l col = some cells) (hall : cells.all Cell.isNum) :
    processAmount col l = l := by
  rw [processAmount_present h, processAmountCol_of_all_num hall]
  exact setCol_self l hnd h

/-! ### Label-trimming lemmas -/

theorem stripLabels_eq_self {l : Ledger} (h : ∀ s ∈ labelsOf l, strTrim s = s) :
    stripLabels l = l := by
  unfold stripLabels
  refine map_eq_self_of (fun c hc => ?_)
  have ht : strTrim c.1 = c.1 := h c.1 (List.mem_map_of_mem Prod.fst hc)
  rw [ht]

theorem strTrim_dateCol : strTrim dateColName = dateColName := by decide

theorem strTrim_debitCol : strTrim debitColName = debitColName := by decide

theorem strTrim_creditCol : strTrim creditColName = creditColName := by decide

theorem debit_ne_date : debitColName ≠ dateColName := by decide

theorem credit_ne_date : creditColName ≠ dateColName := by decide

theorem debit_ne_credit : debitColName ≠ creditColName := by decide

/-! ### Duplicated-label selection lemmas -/

/-- When the labels are pairwise distinct, selecting a label yields at most
one column and it is the first-match lookup: the two access models agree on
every ledger without label collisions. -/
theorem lookupAllCols_of_nodup {l : Ledger} (hnd : (labelsOf l).Nodup) (n : String) :
    lookupAllCols l n = (lookupCol l n).toList := by
  induction l with
  | nil => rfl
  | cons c cs ih =>
    rw [labelsOf_cons] at hnd
    obtain ⟨hna, hnd2⟩ := List.nodup_cons.mp hnd
    by_cases h : c.1 = n
    · have hrest : lookupAllCols cs n = [] := by
        unfold lookupAllCols
        have : cs.filter (fun c => c.1 == n) = [] := by
          rw [List.filter_eq_nil]
          intro x hx
          simp only [beq_iff_eq]
          intro hxn
          exact hna (by
            rw [h, ← hxn]
            exact List.mem_map_of_mem Prod.fst hx)
        rw [this]
        rfl
      simp [lookupAllCols, lookupCol, lookupBy, List.filter_cons, h] at hrest ⊢
      exact hrest
    · simp only [lookupAllCols, lookupCol, lookupBy, List.filter_cons] at ih ⊢
      simp only [beq_iff_eq, h, if_false]
      simpa [h] using ih hnd2

theorem lookupAllCols_append (l₁ l₂ : Ledger) (n : String) :
    lookupAllCols (l₁ ++ l₂) n = lookupAllCols l₁ n ++ lookupAllCols l₂ n := by
  unfold lookupAllCols
  rw [List.filter_append, List.map_append]

/-- Selecting a label after the final trim selects every column whose
trimmed label matches, values untouched. -/
theorem lookupAllCols_stripLabels (l : Ledger) (n : String) :
    lookupAllCols (stripLabels l) n =
      (l.filter (fun c => strTrim c.1 == n)).map Prod.snd := by
  induction l with
  | nil => rfl
  | cons c cs ih =>
    by_cases h : (strTrim c.1 == n) = true
    · simp only [stripLabels, lookupAllCols, List.map_cons, List.filter_cons, h,
        if_true] at ih ⊢
      simpa using ih
    · rw [Bool.not_eq_true] at h
      simp only [stripLabels, lookupAllCols, List.map_cons, List.filter_cons, h,
        if_false] at ih ⊢
      exact ih

/-- Replacing the values of the columns labeled n does not change which
columns a different post-trim label selects, nor their values, as long as
the trimmed n does not match. -/
theorem filter_trim_setAll {l : Ledger} {n m : String} (v : List Cell)
    (h : (strTrim n == m) = false) :
    (setAll l n v).filter (fun c => strTrim c.1 == m) =
      l.filter (fun c => strTrim c.1 == m) := by
  induction l with
  | nil => rfl
  | cons c cs ih =>
    by_cases hc : c.1 = n
    · simp only [setAll, hc, if_true, List.filter_cons, h, if_false]
      exact ih
    · simp only [setAll, hc, if_false, List.filter_cons]
      by_cases hm : (strTrim c.1 == m) = true
      · simp only [hm, if_true]
        rw [ih]
      · rw [Bool.not_eq_true] at hm
        simp only [hm, if_false]
        exact ih

theorem strTrim_debit_beq : (strTrim debitColName == debitColName) = true := by decide

theorem strTrim_credit_beq_debit : (strTrim creditColName == debitColName) = false := by
  decide

/-! ### The normalization pass under clean labels -/

theorem nodup_labels_processAmount (col : String) {l : Ledger}
    (hnd : (labelsOf l).Nodup) : (labelsOf (processAmount col l)).Nodup := by
  cases hl : lookupCol l col with
  | none =>
    rw [labels_processAmount_absent hl]
    have hni : col ∉ labelsOf l := (lookupBy_eq_none_iff l col).mp hl
    rw [List.nodup_append]
    exact ⟨hnd, List.nodup_singleton col, by simpa [List.disjoint_singleton] using hni⟩
  | some cells =>
    rw [labels_processAmount_present hl]
    exact hnd

theorem clean_labels_processDates {l : Ledger} (h : CleanLabels l) :
    CleanLabels (processDates l) := by
  constructor
  · rw [labels_processDates]
    exact h.1
  · rw [labels_processDates]
    exact h.2

theorem clean_labels_processAmount (col : String) {l : Ledger}
    (hcol : strTrim col = col) (h : CleanLabels l) : CleanLabels (processAmount col l) := by
  constructor
  · intro s hs
    rcases labels_processAmount_sub col l s hs with h1 | rfl
    · exact h.1 s h1
    · exact hcol
  · exact nodup_labels_processAmount col h.2

/-- Under clean raw labels, the final label trimming of the normalization
pass is the identity, so the pass is the three processing stages in
order. -/
theorem preprocess_eq_of_clean {l : Ledger} (h : CleanLabels l) :
    preprocessData l =
      processAmount creditColName (processAmount debitColName (processDates l)) := by
  unfold preprocessData
  apply stripLabels_eq_self
  intro s hs
  rcases labels_processAmount_sub creditColName _ s hs with hs1 | rfl
  · rcases labels_processAmount_sub debitColName _ s hs1 with hs2 | rfl
    · rw [labels_processDates] at hs2
      exact h.1 s hs2
    · exact strTrim_debitCol
  · exact strTrim_creditCol

theorem clean_preprocess {l : Ledger} (h : CleanLabels l) :
    CleanLabels (preprocessData l) := by
  rw [preprocess_eq_of_clean h]
  exact clean_labels_processAmount _ strTrim_creditCol
    (clean_labels_processAmount _ strTrim_debitCol (clean_labels_processDates h))

/-- After normalization the debit column is present and entirely numeric. -/
theorem preprocess_debit_num {l : Ledger} (h : CleanLabels l) :
    ∃ v, lookupCol (preprocessData l) debitColName = some v ∧ v.all Cell.isNum := by
  rw [preprocess_eq_of_clean h, lookup_processAmount_ne debit_ne_credit]
  cases hdb : lookupCol (processDates l) debitColName with
  | none => exact ⟨_, lookup_processAmount_absent hdb, replicate_all_num _⟩
  | some cells => exact ⟨_, lookup_processAmount_present hdb, processAmountCol_all_num cells⟩

/-- After normalization the credit column is present and entirely numeric. -/
theorem preprocess_credit_num {l : Ledger} (h : CleanLabels l) :
    ∃ v, lookupCol (preprocessData l) creditColName = some v ∧ v.all Cell.isNum := by
  rw [preprocess_eq_of_clean h]
  cases hcr : lookupCol (processAmount debitColName (processDates l)) creditColName with
  | none => exact ⟨_, lookup_processAmount_absent hcr, replicate_all_num _⟩
  | some cells => exact ⟨_, lookup_processAmount_present hcr, processAmountCol_all_num cells⟩

/-- After normalization, a date column absent from the raw ledger is still
absent. -/
theorem preprocess_date_absent {l : Ledger} (h : CleanLabels l)
    (hd : lookupCol l dateColName = none) :
    lookupCol (preprocessData l) dateColName = none := by
  rw [preprocess_eq_of_clean h, lookup_processAmount_ne credit_ne_date.symm,
    lookup_processAmount_ne debit_ne_date.symm, processDates_of_absent hd]
  exact hd

/-- After normalization, a present date column holds exactly the parses
that succeeded, in order. -/
theorem preprocess_date_some {l : Ledger} {cells : List Cell} (h : CleanLabels l)
    (hd : lookupCol l dateColName = some cells) :
    lookupCol (preprocessData l) dateColName =
      some ((cells.map parseDateOrNull).filter (fun c => !Cell.isNull c)) := by
  rw [preprocess_eq_of_clean h, lookup_processAmount_ne credit_ne_date.symm,
    lookup_processAmount_ne debit_ne_date.symm]
  exact lookup_processDates_date hd

theorem filtered_parsed_all_date (cells : List Cell) :
    ((cells.map parseDateOrNull).filter (fun c => !Cell.isNull c)).all Cell.isDate := by
  rw [List.all_eq_true]
  intro x hx
  rw [List.mem_filter] at hx
  obtain ⟨hmem, hnn⟩ := hx
  rw [List.mem_map] at hmem
  obtain ⟨c, _, rfl⟩ := hmem
  unfold parseDateOrNull at hnn ⊢
  cases hp : parseDateCell c with
  | some t =>
    obtain ⟨d, m, y⟩ := t
    rfl
  | none =>
    rw [hp] at hnn
    simp [Cell.isNull] at hnn

theorem nrows_preprocess {l : Ledger} (h : CleanLabels l) :
    nrows (preprocessData l) = nrows (processDates l) := by
  rw [preprocess_eq_of_clean h, nrows_processAmount, nrows_processAmount]

theorem nrows_preprocess_le {l : Ledger} (h : CleanLabels l) :
    nrows (preprocessData l) ≤ nrows l := by
  rw [nrows_preprocess h]
  exact nrows_processDates_le l

theorem all_num_not_null {v : List Cell} (h : v.all Cell.isNum) :
    v.all (fun c => !Cell.isNull c) := by
  rw [List.all_eq_true] at h ⊢
  intro x hx
  have hn := h x hx
  cases x <;> simp [Cell.isNum] at hn <;> rfl

theorem countNulls_zero_of_all_num {v : List Cell} (h : v.all Cell.isNum) :
    countNulls v = 0 := by
  unfold countNulls
  have hf : v.filter Cell.isNull = [] := by
    rw [List.filter_eq_nil]
    intro x hx
    have hn := (List.all_eq_true.mp h) x hx
    cases x <;> simp [Cell.isNum] at hn <;> simp [Cell.isNull]
  rw [hf]
  rfl

/-!
## The claims

Each claim of the specification is settled by one theorem below, together
with a witness instantiation when the theorem carries hypotheses, and a
concrete counterexample when the claim fails as stated.
-/

section ClaimProofs

attribute [local semireducible] Rat.add Rat.mul Rat.inv Rat.sub

/-- Concrete raw ledger whose debit column holds a negative raw value. -/
def exNegLedger : Ledger :=
  [("Transaction Date", [Cell.str "01/02/2024"]),
   ("Debit Amount", [Cell.str "-5"]),
   ("Credit Amount", [Cell.num 0])]

/-- Claim C1, counterexample: normalization does not make amounts
non-negative.  The raw debit string of negative five parses sign-preserved,
so the normalized debit column contains a negative number, refuting
the asserted invariant debit at least zero. -/
theorem negative_amount_counterexample :
    lookupCol (preprocessData exNegLedger) debitColName = some [Cell.num (-5)] ∧
    ¬ (0 : ℚ) ≤ -5 := by
  constructor
  · decide
  · norm_num

/-- Claim C1 (amended): after normalization of a ledger with trimmed,
pairwise-distinct column labels, the debit and credit columns are present
and every entry is numeric, hence never null and never non-numeric text;
non-negativity is not guaranteed. -/
theorem amounts_present_and_numeric (l : Ledger) (h : CleanLabels l) :
    ∃ db cr,
      lookupCol (preprocessData l) debitColName = some db ∧
      lookupCol (preprocessData l) creditColName = some cr ∧
      db.all Cell.isNum ∧ cr.all Cell.isNum ∧
      db.all (fun c => !Cell.isNull c) ∧ cr.all (fun c => !Cell.isNull c) := by
  obtain ⟨db, hdb, hdbn⟩ := preprocess_debit_num h
  obtain ⟨cr, hcr, hcrn⟩ := preprocess_credit_num h
  exact ⟨db, cr, hdb, hcr, hdbn, hcrn, all_num_not_null hdbn, all_num_not_null hcrn⟩

def exW1 : Ledger := [("Debit Amount", [Cell.str "abc", Cell.null])]

/-- Witness for the amended claim C1 at a concrete ledger. -/
theorem amounts_present_and_numeric_witness :
    ∃ db cr,
      lookupCol (preprocessData exW1) debitColName = some db ∧
      lookupCol (preprocessData exW1) creditColName = some cr ∧
      db.all Cell.isNum ∧ cr.all Cell.isNum ∧
      db.all (fun c => !Cell.isNull c) ∧ cr.all (fun c => !Cell.isNull c) :=
  amounts_present_and_numeric exW1 ⟨by decide, by decide⟩

/-- Claim C2: the spec says the judge stage retries up to 3 times with a
fixed delay and then returns a fallback string.  The code intends this but
never imports the time module, so the first retry attempt raises a
NameError from time.sleep instead of sleeping: a generation failure on
attempt 1 crashes the call even when attempt 2 would succeed, and three
consecutive failures never reach the third attempt.  Only the
connection-probe failure path returns the fallback, and it does so
immediately with no retry.  This theorem evaluates the code at those
failing inputs. -/
theorem judge_retry_raises_name_error :
    getJudgeEvaluation (fun _ => JudgeAttempt.genFail "ConnectionError") =
      PyResult.raised timeNameError ∧
    getJudgeEvaluation (fun i => if i = 0 then JudgeAttempt.genFail "ConnectionError"
      else JudgeAttempt.genOk "evaluation text") = PyResult.raised timeNameError ∧
    getJudgeEvaluation (fun _ => JudgeAttempt.connDown) =
      PyResult.returned serviceUnavailableMsg := by
  exact ⟨rfl, rfl, rfl⟩

/-- Concrete raw ledger whose date column label carries leading
whitespace and holds an unparsable date. -/
def exWhitespaceDate : Ledger := [(" Transaction Date", [Cell.str "bogus"])]

/-- Claim C3, counterexample: normalization is not idempotent on every raw
ledger.  A whitespace-padded date label is only trimmed at the end of the
pass, so the first pass performs no date filtering, and the second pass
then sees a canonical date column with an unparsable value and drops the
row: the second application changes the ledger. -/
theorem normalize_not_idempotent :
    preprocessData (preprocessData exWhitespaceDate) ≠ preprocessData exWhitespaceDate := by
  decide

/-- Claim C3 (amended): normalization is idempotent on every raw ledger
whose column labels are already trimmed and pairwise distinct. -/
theorem preprocess_idempotent_clean (l : Ledger) (h : CleanLabels l) :
    preprocessData (preprocessData l) = preprocessData l := by
  have hn : CleanLabels (preprocessData l) := clean_preprocess h
  obtain ⟨db, hdb, hdbn⟩ := preprocess_debit_num h
  obtain ⟨cr, hcr, hcrn⟩ := preprocess_credit_num h
  have hdates : processDates (preprocessData l) = preprocessData l := by
    cases hd : lookupCol l dateColName with
    | none => exact processDates_of_absent (preprocess_date_absent h hd)
    | some cells =>
      exact processDates_eq_self hn.2 (preprocess_date_some h hd)
        (filtered_parsed_all_date cells)
  rw [preprocess_eq_of_clean hn, hdates, processAmount_eq_self hn.2 hdb hdbn,
    processAmount_eq_self hn.2 hcr hcrn]

def exW3 : Ledger :=
  [("Transaction Date", [Cell.str "01/02/2024", Cell.str "bad date"]),
   ("Debit Amount", [Cell.str "7", Cell.null])]

/-- Witness for the amended claim C3 at a concrete ledger. -/
theorem preprocess_idempotent_clean_witness :
    preprocessData (preprocessData exW3) = preprocessData exW3 :=
  preprocess_idempotent_clean exW3 ⟨by decide, by decide⟩

/-- Claim C4: for each configured amount column independently, the pass
creates an absent column as all-zero, turns an entirely-missing column into
all-zero, and otherwise coerces every value (strip the currency symbol,
commas and spaces, then parse as a decimal, unparsable values becoming
zero); the three quoted examples parse as stated.  The column contents seen
by the amount stage are those after date-row filtering, whose labels agree
with the raw ledger. -/
theorem amount_column_policy (l : Ledger) (h : CleanLabels l) (col : String)
    (hcol : col = debitColName ∨ col = creditColName) :
    (lookupCol (processDates l) col = none →
       lookupCol (preprocessData l) col =
         some (List.replicate (nrows (processDates l)) (Cell.num 0))) ∧
    (∀ cells, lookupCol (processDates l) col = some cells →
       (cells.all Cell.isNull →
          lookupCol (preprocessData l) col = some (cells.map (fun _ => Cell.num 0))) ∧
       (¬ cells.all Cell.isNull →
          lookupCol (preprocessData l) col =
            some (cells.map (fun c => Cell.num ((coerceAmountCell c).getD 0))))) ∧
    coerceAmountCell (Cell.str "£1,234.50") = some (2469 / 2) ∧
    coerceAmountCell (Cell.str "  2,000  ") = some 2000 ∧
    (coerceAmountCell (Cell.str "abc")).getD 0 = 0 := by
  have hex1 : coerceAmountCell (Cell.str "£1,234.50") = some (2469 / 2) := by decide
  have hex2 : coerceAmountCell (Cell.str "  2,000  ") = some 2000 := by decide
  have hex3 : (coerceAmountCell (Cell.str "abc")).getD 0 = 0 := by decide
  rcases hcol with rfl | rfl
  · refine ⟨?_, ?_, hex1, hex2, hex3⟩
    · intro hnone
      rw [preprocess_eq_of_clean h, lookup_processAmount_ne debit_ne_credit,
        lookup_processAmount_absent hnone]
    · intro cells hcells
      constructor
      · intro hall
        rw [preprocess_eq_of_clean h, lookup_processAmount_ne debit_ne_credit,
          lookup_processAmount_present hcells]
        unfold processAmountCol
        rw [if_pos hall]
      · intro hnall
        rw [preprocess_eq_of_clean h, lookup_processAmount_ne debit_ne_credit,
          lookup_processAmount_present hcells]
        unfold processAmountCol
        rw [if_neg hnall]
  · have htrans :
        lookupCol (processAmount debitColName (processDates l)) creditColName =
          lookupCol (processDates l) creditColName :=
      lookup_processAmount_ne debit_ne_credit.symm
    refine ⟨?_, ?_, hex1, hex2, hex3⟩
    · intro hnone
      rw [preprocess_eq_of_clean h,
        lookup_processAmount_absent (htrans.trans hnone),
        nrows_processAmount]
    · intro cells hcells
      constructor
      · intro hall
        rw [preprocess_eq_of_clean h,
          lookup_processAmount_present (htrans.trans hcells)]
        unfold processAmountCol
        rw [if_pos hall]
      · intro hnall
        rw [preprocess_eq_of_clean h,
          lookup_processAmount_present (htrans.trans hcells)]
        unfold processAmountCol
        rw [if_neg hnall]

def exW4 : Ledger := [("Credit Amount", [Cell.str "£1,234.50", Cell.null])]

/-- Witness for claim C4: a ledger with no debit column gets an all-zero
debit column of the current row count. -/
theorem amount_column_policy_witness :
    lookupCol (preprocessData exW4) debitColName =
      some (List.replicate (nrows (processDates exW4)) (Cell.num 0)) :=
  (amount_column_policy exW4 ⟨by decide, by decide⟩ debitColName (Or.inl rfl)).1 (by decide)

/-- Claim C5: every date value of a present date column is parsed with the
single fixed format and the rows whose parse fails are dropped: the
normalized date column is exactly the successful parses in order, every
surviving entry is a parsed date, the normalized row count never exceeds
the raw row count, and a wholly absent date column causes no row drops. -/
theorem date_parse_drop_policy (l : Ledger) (h : CleanLabels l) :
    nrows (preprocessData l) ≤ nrows l ∧
    (∀ cells, lookupCol l dateColName = some cells →
       lookupCol (preprocessData l) dateColName =
         some ((cells.map parseDateOrNull).filter (fun c => !Cell.isNull c)) ∧
       ((cells.map parseDateOrNull).filter (fun c => !Cell.isNull c)).all Cell.isDate) ∧
    (lookupCol l dateColName = none → nrows (preprocessData l) = nrows l) := by
  refine ⟨nrows_preprocess_le h, ?_, ?_⟩
  · intro cells hcells
    exact ⟨preprocess_date_some h hcells, filtered_parsed_all_date cells⟩
  · intro hnone
    rw [nrows_preprocess h, processDates_of_absent hnone]

def exW5 : Ledger := [("Transaction Date", [Cell.str "01/02/2024", Cell.str "31/02/2024"])]

/-- Witness for claim C5: one valid and one invalid date; the invalid row
is dropped and the row count shrinks. -/
theorem date_parse_drop_policy_witness :
    lookupCol (preprocessData exW5) dateColName =
      some (([Cell.str "01/02/2024", Cell.str "31/02/2024"].map parseDateOrNull).filter
        (fun c => !Cell.isNull c)) ∧
    nrows (preprocessData exW5) ≤ nrows exW5 :=
  ⟨((date_parse_drop_policy exW5 ⟨by decide, by decide⟩).2.1 _ rfl).1,
   (date_parse_drop_policy exW5 ⟨by decide, by decide⟩).1⟩

/-- Claim C6: on a ledger with zero rows analyze_structure returns, rather
than raises, the summary with zero transaction count, null date range, zero
totals, empty missing-value and statistics maps and the explicit no-data
warning marker. -/
theorem analyzer_empty_policy (l : Ledger) (h : nrows l = 0) :
    analyzeStructure l =
      Except.ok ⟨⟨0, ⟨none, none⟩, ⟨0, 0⟩⟩, [], [], some noDataMsg⟩ := by
  unfold analyzeStructure
  rw [if_pos h]

/-- Witness for claim C6 at the empty ledger. -/
theorem analyzer_empty_policy_witness :
    analyzeStructure ([] : Ledger) =
      Except.ok ⟨⟨0, ⟨none, none⟩, ⟨0, 0⟩⟩, [], [], some noDataMsg⟩ :=
  analyzer_empty_policy [] rfl

/-- Claim C7: on a non-empty normalized ledger whose date column survives,
the summary has transaction count equal to the row count, date range the
minimum and maximum of the date column, totals the column-wise sums of the
debit and credit columns, the missing-value map computed per column over
the current (already zero-filled) ledger state, and hence zero recorded
missing values for the debit and credit columns. -/
theorem analyzer_nonempty_summary (l : Ledger) (h : CleanLabels l)
    (hne : ¬ nrows (preprocessData l) = 0)
    (dc : List Cell) (hdc : lookupCol (preprocessData l) dateColName = some dc) :
    ∃ db cr,
      lookupCol (preprocessData l) debitColName = some db ∧
      lookupCol (preprocessData l) creditColName = some cr ∧
      analyzeStructure (preprocessData l) =
        Except.ok ⟨⟨nrows (preprocessData l), ⟨minDateC dc, maxDateC dc⟩,
            ⟨sumNums db, sumNums cr⟩⟩,
          (preprocessData l).map (fun c => (c.1, countNulls c.2)),
          describeLedger (preprocessData l), none⟩ ∧
      lookupBy ((preprocessData l).map (fun c => (c.1, countNulls c.2))) debitColName =
        some 0 ∧
      lookupBy ((preprocessData l).map (fun c => (c.1, countNulls c.2))) creditColName =
        some 0 := by
  obtain ⟨db, hdb, hdbn⟩ := preprocess_debit_num h
  obtain ⟨cr, hcr, hcrn⟩ := preprocess_credit_num h
  have hdb2 : lookupBy (preprocessData l) debitColName = some db := hdb
  have hcr2 : lookupBy (preprocessData l) creditColName = some cr := hcr
  refine ⟨db, cr, hdb, hcr, ?_, ?_, ?_⟩
  · unfold analyzeStructure
    rw [if_neg hne, hdc]
    dsimp only
    rw [hdb]
    dsimp only
    rw [hcr]
  · rw [lookupBy_map_values, hdb2, Option.map_some', countNulls_zero_of_all_num hdbn]
  · rw [lookupBy_map_values, hcr2, Option.map_some', countNulls_zero_of_all_num hcrn]

def exW7 : Ledger :=
  [("Transaction Date", [Cell.str "02/03/2024"]),
   ("Debit Amount", [Cell.str "10"]),
   ("Credit Amount", [Cell.null])]

/-- Witness for claim C7 at a concrete one-row ledger. -/
theorem analyzer_nonempty_summary_witness :
    ∃ db cr,
      lookupCol (preprocessData exW7) debitColName = some db ∧
      lookupCol (preprocessData exW7) creditColName = some cr ∧
      analyzeStructure (preprocessData exW7) =
        Except.ok ⟨⟨nrows (preprocessData exW7), ⟨minDateC [Cell.date 2 3 2024],
            maxDateC [Cell.date 2 3 2024]⟩, ⟨sumNums db, sumNums cr⟩⟩,
          (preprocessData exW7).map (fun c => (c.1, countNulls c.2)),
          describeLedger (preprocessData exW7), none⟩ ∧
      lookupBy ((preprocessData exW7).map (fun c => (c.1, countNulls c.2))) debitColName =
        some 0 ∧
      lookupBy ((preprocessData exW7).map (fun c => (c.1, countNulls c.2))) creditColName =
        some 0 :=
  analyzer_nonempty_summary exW7 ⟨by decide, by decide⟩ (by decide)
    [Cell.date 2 3 2024] (by decide)

/-- Claim C8: the report is the header with its generation timestamp
followed by exactly the four sections in the fixed order structure
analysis, visualizations, narrative, judge review; a no-data marker on the
analysis or plot input renders the warning line in place of that section
body, and the narrative and judge sections render their upstream text
(which is the fallback string when that stage degraded) verbatim. -/
theorem report_sections_order_and_warnings (ts w w2 ins ev : String)
    (a : Analysis) (p : Plots) (hw : a.warning = some w) (hp : p.warning = some w2) :
    generateReport ts a p ins ev =
      "# Bank Transaction Analysis Report\n\nGenerated on: " ++ ts ++ "\n\n" ++
      ("## Data Structure Analysis\n\n" ++ ("**Warning:** " ++ w ++ "\n\n")) ++
      ("## Visualizations\n\n" ++ ("**Warning:** " ++ w2 ++ "\n\n")) ++
      ("## LLM Insights\n\n" ++ ins ++ "\n\n") ++
      ("## Expert Review\n\n" ++ ev ++ "\n\n") := by
  unfold generateReport writeReportHeader writeStructureAnalysis writeVisualizations
    writeLlmInsights writeJudgeEvaluation
  rw [hw, hp]
  simp [String.append_assoc]

/-- Witness for claim C8 with both markers set and fallback narrative. -/
theorem report_sections_order_and_warnings_witness :
    generateReport "2025-01-01 00:00:00"
        ⟨⟨0, ⟨none, none⟩, ⟨0, 0⟩⟩, [], [], some noDataMsg⟩
        ⟨some "No data available for visualization", []⟩
        noDataMsg "review text" =
      "# Bank Transaction Analysis Report\n\nGenerated on: " ++ "2025-01-01 00:00:00" ++
      "\n\n" ++
      ("## Data Structure Analysis\n\n" ++ ("**Warning:** " ++ noDataMsg ++ "\n\n")) ++
      ("## Visualizations\n\n" ++
        ("**Warning:** " ++ "No data available for visualization" ++ "\n\n")) ++
      ("## LLM Insights\n\n" ++ noDataMsg ++ "\n\n") ++
      ("## Expert Review\n\n" ++ "review text" ++ "\n\n") :=
  report_sections_order_and_warnings "2025-01-01 00:00:00" noDataMsg
    "No data available for visualization" noDataMsg "review text" _ _ rfl rfl

/-- Claim C9: on a non-empty ledger the analyzer indexes the configured
date, debit and credit columns unconditionally: with the date column
absent (for instance present only under a differently-spelled label) it
raises KeyError instead of returning a summary, and with all three present
it returns one. -/
theorem analyzer_missing_columns (l : Ledger) (hne : ¬ nrows l = 0) :
    (lookupCol l dateColName = none →
       analyzeStructure l = Except.error (keyErrorMsg dateColName)) ∧
    (∀ dc db cr, lookupCol l dateColName = some dc →
       lookupCol l debitColName = some db → lookupCol l creditColName = some cr →
       ∃ a, analyzeStructure l = Except.ok a) := by
  constructor
  · intro hd
    unfold analyzeStructure
    rw [if_neg hne, hd]
  · intro dc db cr hdc hdb hcr
    refine ⟨⟨⟨nrows l, ⟨minDateC dc, maxDateC dc⟩, ⟨sumNums db, sumNums cr⟩⟩,
      l.map (fun c => (c.1, countNulls c.2)), describeLedger l, none⟩, ?_⟩
    unfold analyzeStructure
    rw [if_neg hne, hdc]
    dsimp only
    rw [hdb]
    dsimp only
    rw [hcr]

def exW9 : Ledger := [("Date", [Cell.str "01/02/2024"]), ("Debit Amount", [Cell.num 1])]

/-- Witness for claim C9: one row, date column under a different label. -/
theorem analyzer_missing_columns_witness :
    analyzeStructure exW9 = Except.error (keyErrorMsg dateColName) :=
  (analyzer_missing_columns exW9 (by decide)).1 rfl

/-- Concrete raw ledger whose debit column label carries surrounding
whitespace, plus a date column so the analyzer totals are reachable. -/
def exSpacedDebit : Ledger :=
  [("Transaction Date", [Cell.str "01/01/2024"]),
   (" Debit Amount ", [Cell.num 5]),
   ("Credit Amount", [Cell.num 3])]

/-- Claim C10, counterexample: the whitespace-labeled debit column is
indeed treated as absent and an all-zero canonical column is appended, but
after the final label trim the untouched original also bears the canonical
name, so selecting the canonical debit label yields both columns (pandas
returns every matching column of a duplicated label), original values
first, and the sum the analyzer computes over that selection is the pair
of per-column sums five and zero rather than any all-zero value: the
original values do reach the normalized amounts and the totals computed
from them, refuting the claim. -/
theorem whitespace_label_counterexample :
    preprocessData exSpacedDebit =
      [("Transaction Date", [Cell.date 1 1 2024]),
       ("Debit Amount", [Cell.num 5]),
       ("Credit Amount", [Cell.num 3]),
       ("Debit Amount", [Cell.num 0])] ∧
    lookupAllCols (preprocessData exSpacedDebit) debitColName =
      [[Cell.num 5], [Cell.num 0]] ∧
    sumSelected (preprocessData exSpacedDebit) debitColName = [5, 0] ∧
    ¬ sumSelected (preprocessData exSpacedDebit) debitColName = [0, 0] := by
  refine ⟨by decide, by decide, by decide, by decide⟩

/-- Claim C10 (amended): a ledger without the exactly-spelled debit label
(in particular one carrying it only with surrounding whitespace) has its
amount stage append a fresh all-zero debit column of the current row count
while leaving every other column untouched; the final label trim then
makes every column whose trimmed label is the canonical debit name collide
with the created column, so the canonical-name selection of the normalized
ledger is exactly those original columns, values untouched (beyond the
date-row filtering applied to all columns), followed by the created
all-zero column — the original values remain reachable under the canonical
amount name and flow into any total computed from that selection. -/
theorem whitespace_label_treated_absent (l : Ledger)
    (hdebit : lookupCol l debitColName = none) :
    processAmount debitColName (processDates l) =
      processDates l ++
        [(debitColName, List.replicate (nrows (processDates l)) (Cell.num 0))] ∧
    lookupAllCols (preprocessData l) debitColName =
      ((processDates l).filter (fun c => strTrim c.1 == debitColName)).map Prod.snd ++
        [List.replicate (nrows (processDates l)) (Cell.num 0)] := by
  have hdebit2 : lookupCol (processDates l) debitColName = none := by
    have hm : debitColName ∉ labelsOf l := (lookupBy_eq_none_iff l debitColName).mp hdebit
    refine (lookupBy_eq_none_iff (processDates l) debitColName).mpr ?_
    rw [show (processDates l).map Prod.fst = labelsOf (processDates l) from rfl,
      labels_processDates]
    exact hm
  have hpa := processAmount_absent hdebit2
  refine ⟨hpa, ?_⟩
  unfold preprocessData
  rw [hpa]
  cases hcr : lookupCol
      (processDates l ++
        [(debitColName, List.replicate (nrows (processDates l)) (Cell.num 0))])
      creditColName with
  | none =>
    rw [processAmount_absent hcr, lookupAllCols_stripLabels, List.filter_append,
      List.filter_append, List.map_append, List.map_append]
    simp [List.filter_cons, strTrim_debit_beq, strTrim_credit_beq_debit]
  | some cells =>
    rw [processAmount_present hcr, setCol_of_present _ _ (by simp [hcr]),
      lookupAllCols_stripLabels, filter_trim_setAll _ strTrim_credit_beq_debit,
      List.filter_append, List.map_append]
    simp [List.filter_cons, strTrim_debit_beq]

def exW10 : Ledger := [(" Debit Amount ", [Cell.str "7"])]

/-- Witness for the amended claim C10 at a concrete ledger: the original
raw column survives unparsed under the canonical name, followed by the
created zero column. -/
theorem whitespace_label_treated_absent_witness :
    processAmount debitColName (processDates exW10) =
      processDates exW10 ++
        [(debitColName, List.replicate (nrows (processDates exW10)) (Cell.num 0))] ∧
    lookupAllCols (preprocessData exW10) debitColName =
      ((processDates exW10).filter (fun c => strTrim c.1 == debitColName)).map Prod.snd ++
        [List.replicate (nrows (processDates exW10)) (Cell.num 0)] :=
  whitespace_label_treated_absent exW10 rfl

end ClaimProofs

end TA
